import Mathlib

/-!
Verification of the core data pipeline of `lazygantt` (column validation,
row filtering, project-duration derivation, phase aggregation, milestone
filtering, boolean occupancy grids) against its natural-language
specification.  The definitions below are shallow embeddings of
`src/lazygantt/lazygantt.py` (class `LazyGantt` and class
`DataColumnChecker`) and of the subplot selection in
`src/lazygantt/visuals.py` (`Chart.plot_gantt`).  Tables are lists of named
columns whose cells are null, integer, or string values; fallible pandas /
numpy operations are embedded into `Option` / `Except`.
-/

/-- Value of one table cell, as produced by `pd.read_csv`: missing (NaN),
numeric, or textual. -/
inductive Cell where
  | null : Cell
  | int : Int → Cell
  | str : String → Cell
deriving DecidableEq

/-- Predicate for a missing cell (pandas `isnull`). -/
def Cell.isNull : Cell → Bool
  | .null => true
  | _ => false

/-- Predicate for a textual cell. -/
def Cell.isStr : Cell → Bool
  | .str _ => true
  | _ => false

/-- Predicate for a numeric cell. -/
def Cell.isInt : Cell → Bool
  | .int _ => true
  | _ => false

/-- Integer value of a numeric cell, defaulting to 0 otherwise. -/
def intVal : Cell → Int
  | .int n => n
  | _ => 0

/-- One named column of a dataframe. -/
structure Column where
  name : String
  cells : List Cell
deriving DecidableEq

/-- A pandas dataframe: an ordered list of named columns (rows are aligned
positionally across columns). -/
abbrev Table := List Column

/-- Lookup of a column by name (`data[column]`). -/
def getColumn (data : Table) (c : String) : Option Column :=
  data.find? (fun col => col.name == c)

/-- Cells of a named column, `[]` when the column is absent. -/
def getCells (data : Table) (c : String) : List Cell :=
  match getColumn data c with
  | some col => col.cells
  | none => []

/-- `DataColumnChecker._check_existence`: the column name is present in the
table schema (`column in data.columns`). `true` means the check passes. -/
def checkExistence (c : String) (data : Table) : Bool :=
  (getColumn data c).isSome

/-- `DataColumnChecker._check_content`: at least one non-null value
(`not data[column].isnull().values.all()`). `true` means the check passes. -/
def checkContent (c : String) (data : Table) : Bool :=
  !((getCells data c).all Cell.isNull)

/-- `DataColumnChecker._check_for_strings`: the column is not string-typed
(`not is_string_dtype(data[column])`); a CSV column holding any text is
object/string dtyped.  `true` means the check passes. -/
def checkForStrings (c : String) (data : Table) : Bool :=
  !((getCells data c).any Cell.isStr)

/-- Cascade of the three checks of `DataColumnChecker.conditions` in
insertion order (existence, content, strings), returning the message of the
first failing check, `none` when all pass.  The messages are the formatted
strings printed or raised by the source. -/
def firstFailure (c : String) (data : Table) : Option String :=
  if !(checkExistence c data) then
    some ("Column '" ++ c ++ "' is missing in your input data!")
  else if !(checkContent c data) then
    some ("Column '" ++ c ++ "' is ignored, since it is empty!")
  else if !(checkForStrings c data) then
    some ("Column '" ++ c ++ "' is ignored, since it holds text instead of numeric data!")
  else none

/-- `DataColumnChecker._filter_for_valid_columns`: Python's
`for column in self.target_columns` holds a cursor index that advances by
one per iteration and re-reads the (mutated) list each time, so
`self.target_columns.remove(column)` inside the body shifts later elements
one position left under the cursor.  The embedding makes the cursor `i`
explicit: fetch `targets[i]`; on success advance; on a failed optional
column remove the first occurrence of the fetched name (`list.remove`) and
advance; on a failed mandatory column raise.  The loop ends when the cursor
reaches the current length.  Since `i` grows by one per call and the list
never grows, `targets.length + 1` units of fuel always reach the exit
branch; the fuel-0 branch returns the same value as the exit branch. -/
def filterLoop (data : Table) (mandatory : List String) :
    Nat → List String → Nat → Except String (List String)
  | 0, targets, _ => Except.ok targets
  | fuel + 1, targets, i =>
    if h : i < targets.length then
      match firstFailure targets[i] data with
      | none => filterLoop data mandatory fuel targets (i + 1)
      | some msg =>
        if mandatory.contains targets[i] then
          Except.error ("Mandatory column cannot be processed! " ++ msg)
        else
          filterLoop data mandatory fuel (targets.erase targets[i]) (i + 1)
    else Except.ok targets

/-- `DataColumnChecker.__init__` followed by `get_valid_columns`: reject an
empty `target_columns`, otherwise run the filtering loop from cursor 0 and
return the final (in-place mutated) `target_columns` list. -/
def dataColumnChecker (data : Table) (targets : List String) (mandatory : List String) :
    Except String (List String) :=
  if targets.isEmpty then Except.error "Empty target_columns! No filtering possible!"
  else filterLoop data mandatory (targets.length + 1) targets 0

/-- `LazyGantt.VARIABLE_MAPPER` (csv column name, internal access key). -/
def VARIABLE_MAPPER : List (String × String) :=
  [("start", "start"), ("duration", "length"), ("phase_number", "phase")]

/-- `LazyGantt.ALL_COLUMNS`: the recognized csv column names. -/
def ALL_COLUMNS : List String := VARIABLE_MAPPER.map Prod.fst

/-- `LazyGantt.MANDATORY_COLUMNS`. -/
def MANDATORY_COLUMNS : List String := ["start", "duration"]

/-- One load's column validation as `LazyGantt._fill_from_csv` performs it
(lines 166-171).  `DataColumnChecker.__init__` stores `target_columns`
without copying (`self.target_columns = target_columns`) and
`_filter_for_valid_columns` mutates that very list with `remove`; since
`LazyGantt` passes its class-level `ALL_COLUMNS` list, the recognized-column
state available to every later load in the process is the checker's final
list, which this embedding returns. -/
def loadAllColumns (allColumns : List String) (data : Table) : Except String (List String) :=
  dataColumnChecker data allColumns MANDATORY_COLUMNS

/-- Row filtering of `_fill_from_csv` (lines 180-184): drop every row whose
`start` cell is null.  A row is the pair of its `start` and `duration`
cells. -/
def dropNanRows (rows : List (Cell × Cell)) : List (Cell × Cell) :=
  rows.filter (fun r => !(r.1.isNull))

/-- `astype('int32')` on one cell: a numeric cell converts, anything else
(NaN, text) raises. -/
def astypeInt32 : Cell → Option Int
  | .int n => some n
  | _ => none

/-- Datatype conversion of `_fill_from_csv` (lines 186-188) applied to the
retained `start`/`duration` rows: every cell must convert to int. -/
def astypeRows : List (Cell × Cell) → Option (List (Int × Int))
  | [] => some []
  | r :: rs =>
    Option.bind (astypeInt32 r.1) fun a =>
    Option.bind (astypeInt32 r.2) fun b =>
    Option.bind (astypeRows rs) fun rest => some ((a, b) :: rest)

/-- Per-record interval computation of `_fill_from_csv` (lines 180-205):
drop null-start rows, convert to int, and build
`(start, start + duration)` per retained row
(`np.asarray((packages_start, packages_start + packages_duration)).T`). -/
def fillPackages (startCol durCol : List Cell) : Option (List (Int × Int)) :=
  Option.bind (astypeRows (dropNanRows (startCol.zip durCol)))
    fun rows => some (rows.map (fun p => (p.1, p.1 + p.2)))

/-- Project-duration derivation of `_fill_from_csv` (lines 190-197) on the
retained integer rows: `data[start].max()` plus the duration at
`data[start].idxmax()` (the first row attaining the maximal start).  `none`
models the failure on an empty frame. -/
def projectDuration (rows : List (Int × Int)) : Option Int :=
  match rows with
  | [] => none
  | r :: rs =>
    let m := rs.foldl (fun acc p => max acc p.1) r.1
    match (r :: rs).find? (fun p => p.1 == m) with
    | some p => some (m + p.2)
    | none => none

/-- `LazyGantt._filter_milestones` with the loaded `no_months`: drop the
negative milestones (printing one batched message listing them when any
exist), then drop the remaining milestones exceeding `no_months` (printing
one batched message listing them when any exist).  Returns the surviving
milestones and the emitted diagnostics. -/
def filterMilestones (milestones : List Int) (noMonths : Int) : List Int × List String :=
  let tooSmall := milestones.filter (fun m => decide (m < 0))
  let step1 := milestones.filter (fun m => decide (0 ≤ m))
  let msgs1 : List String :=
    if tooSmall.isEmpty then []
    else ["Values for milestones are negative: " ++ toString tooSmall]
  let tooBig := step1.filter (fun m => decide (noMonths < m))
  let step2 := step1.filter (fun m => decide (m ≤ noMonths))
  let msgs2 : List String :=
    if tooBig.isEmpty then []
    else ["Values for milestones exceed total length of project of " ++
          toString noMonths ++ " and are filtered: " ++ toString tooBig]
  (step2, msgs1 ++ msgs2)

/-- Resolution of one Python/numpy slice endpoint against axis length `w`:
a negative value has `w` added, then the result is clamped to `[0, w]`. -/
def pySliceResolve (w : Nat) (v : Int) : Int :=
  if v < 0 then max ((w : Int) + v) 0 else min v (w : Int)

/-- One row of width `w` after `row[s:e] = True` on an all-False row, with
Python slice semantics for `s` and `e`. -/
def pySliceRow (w : Nat) (s e : Int) : List Bool :=
  (List.range w).map (fun j =>
    decide (pySliceResolve w s ≤ (j : Int) ∧ (j : Int) < pySliceResolve w e))

/-- `LazyGantt._to_boolean_array` (lines 340-374).  A `none` argument falls
through the `if arr is None: pass` branch and returns Python `None`
(embedded `some none`).  Otherwise `np.full(y_range * x_range, False)` is
reshaped to `(y_range, self.no_months)`, which raises (outer `none`) unless
the element counts agree; each row `i` is then sliced
`boolean_arr[i, arr[i,0]:arr[i,1]] = True` over row width `noMonths`. -/
def toBooleanArray (noMonths : Nat) (arr : Option (List (Int × Int))) (xRange : Nat) :
    Option (Option (List (List Bool))) :=
  match arr with
  | none => some none
  | some rows =>
    if rows.length * xRange = rows.length * noMonths then
      some (some (rows.map (fun r => pySliceRow noMonths r.1 r.2)))
    else none

/-- `LazyGantt.plot` (lines 148-150) computes
`phases = self._to_boolean_array(self.phases, self.no_months)` and
`Chart.plot_gantt` (visuals.py lines 148-152 and 162-171) draws the phase
subplot iff that `voluntary_slots` argument is not `None`.  `some b` means
the plot succeeds and shows the phase row iff `b`; the outer `none` means
the conversion raised. -/
def plotShowsPhaseRow (noMonths : Nat) (phases : Option (List (Int × Int))) : Option Bool :=
  (toBooleanArray noMonths phases noMonths).map Option.isSome

/-- Boundary detection of `_compose_phases` (lines 308-310):
`phases_assigned.diff()` is NaN at the first position (NaN ≠ 0) and
`g[i] - g[i-1]` afterwards, so the selected indices are position 0 and
every position whose value differs from its predecessor. -/
def boundaryIdx (g : List Int) : List Nat :=
  (List.range g.length).filter (fun i => i == 0 || (g.get? i != g.get? (i - 1)))

/-- Label-based pandas series selection `series[idx]`: fails (KeyError) if
any label is absent, otherwise returns the values in `idx` order.  Labels
coincide with positions here because the three series passed to
`_compose_phases` share one index. -/
def seriesSelect (s : List Int) (idx : List Nat) : Option (List Int) :=
  if idx.all (fun i => decide (i < s.length)) then
    some (idx.map (fun i => s.getD i 0))
  else none

/-- Numpy assignment of a 1-D `src` into a destination axis of length `n`:
succeeds when the lengths agree, broadcasts a length-1 source, and raises
otherwise. -/
def npBroadcast (n : Nat) (src : List Int) : Option (List Int) :=
  if src.length = n then some src
  else if src.length = 1 then some (List.replicate n (src.getD 0 0))
  else none

/-- `LazyGantt._compose_phases` (lines 248-318) with the object state
`self.no_phases` and `self.no_months` passed explicitly:
allocate `np.zeros((no_phases, 2))`, find the phase-change indices, fill
column 0 with the starts at those indices, fill column 1 up to the last row
with `starts[j] + durations[j]` at the following change indices, and close
the last row with `no_months` (`phases[-1, 1] = self.no_months`, an
IndexError when `no_phases = 0`).  Any numpy/pandas failure is `none`. -/
def composePhases (no_phases : Nat) (no_months : Int) (g s d : List Int) :
    Option (List (Int × Int)) :=
  Option.bind (seriesSelect s (boundaryIdx g)) fun starts0 =>
  Option.bind (seriesSelect s (boundaryIdx g).tail) fun sNext =>
  Option.bind (seriesSelect d (boundaryIdx g).tail) fun dNext =>
  Option.bind (npBroadcast no_phases starts0) fun col0 =>
  Option.bind (npBroadcast (no_phases - 1) (List.zipWith (fun a b => a + b) sNext dNext))
    fun col1h =>
  if no_phases = 0 then none else some (col0.zip (col1h ++ [no_months]))

/-- Phase aggregation as the pipeline invokes it
(`_fill_from_csv` lines 211-219): `self.no_phases = data[phase].max()`
(failing on an empty column, or on a negative size at `np.zeros`), then
`_compose_phases`. -/
def phasesFromData (g s d : List Int) (noMonths : Int) : Option (List (Int × Int)) :=
  match g.max? with
  | none => none
  | some m => if m < 0 then none else composePhases m.toNat noMonths g s d

/-- Loaded phase attributes of a `LazyGantt` object: `no_phases` and
`phases`, each `none` when absent (Python `None`). -/
structure PhaseState where
  no_phases : Option Int
  phases : Option (List (Int × Int))
deriving DecidableEq

/-- Demonstration defaults assigned by `LazyGantt.__init__` (lines 85-98)
before `_fill_from_csv` runs. -/
def defaultPhaseState : PhaseState :=
  { no_phases := some 3, phases := some [(0, 6), (6, 16), (16, 24)] }

/-- Phases block of `_fill_from_csv` (lines 207-219) as a transition on the
object's phase attributes: when no phase column survived validation both
attributes become `None`; when it survived and holds more than one distinct
value (`len(data[phase].unique()) > 1`) they are recomputed; otherwise no
assignment happens and the previous (constructor-default) attributes
remain.  In the recompute branch a `none` in `phases` stands for an
aggregation failure aborting the load; at the inputs considered in the
theorems below that branch never fails. -/
def fillPhasesStep (prev : PhaseState) (hasPhaseCol : Bool) (g s d : List Int)
    (noMonths : Int) : PhaseState :=
  if !hasPhaseCol then { no_phases := none, phases := none }
  else if 1 < g.dedup.length then
    { no_phases := g.max?, phases := phasesFromData g s d noMonths }
  else prev

/-- Expected phase intervals, following the specification's words: one
interval per contiguous run of `g`; a run's interval starts at the start
value at the run's first index; every run except the last ends at
`starts[j] + durations[j]` for the next run's first index `j`; the last run
ends at the total duration. -/
def phaseIntervalsSpec (g s d : List Int) (total : Int) : List (Int × Int) :=
  (List.range (boundaryIdx g).length).map (fun r =>
    (s.getD ((boundaryIdx g).getD r 0) 0,
     if r + 1 < (boundaryIdx g).length then
       s.getD ((boundaryIdx g).getD (r + 1) 0) 0 + d.getD ((boundaryIdx g).getD (r + 1) 0) 0
     else total))

/-- A small table with one unrecognized column, used to exercise the
validator on columns that fail the existence check. -/
def otherTable : Table := [{ name := "other", cells := [Cell.int 1] }]

/-- A table holding exactly the two mandatory columns with valid integer
content (the shape of `minimal_gantt.csv`). -/
def minimalTable : Table :=
  [{ name := "start", cells := [Cell.int 0, Cell.int 3] },
   { name := "duration", cells := [Cell.int 3, Cell.int 4] }]

/-- A table holding all three recognized columns with valid integer
content. -/
def fullTable : Table :=
  [{ name := "start", cells := [Cell.int 0, Cell.int 3] },
   { name := "duration", cells := [Cell.int 3, Cell.int 4] },
   { name := "phase_number", cells := [Cell.int 1, Cell.int 2] }]

/-- Helper: binding a `some` reduces. -/
theorem option_bind_some {α β : Type} (a : α) (f : α → Option β) :
    Option.bind (some a) f = f a := rfl

/-- C1: the claim says that when a recognized optional column fails a check
the validator drops only that column and continues validating every
remaining recognized column, so the result holds exactly the passing
columns.  The code removes the failing column from the list it is
iterating over, which shifts the following column under the loop cursor:
for recognized columns `["opt1", "opt2"]` (none mandatory) over a table
containing neither, `"opt1"` is dropped, `"opt2"` is never examined, and
the returned set is `["opt2"]` although `"opt2"` fails the existence
check.  This contradicts the checker's own docstring ("Invalid columns are
ignored for further processing"). -/
theorem c1_skipped_column_bug :
    dataColumnChecker otherTable ["opt1", "opt2"] [] = Except.ok ["opt2"]
    ∧ checkExistence "opt2" otherTable = false := by
  constructor
  · rfl
  · rfl

/-- C6: the claim says validation aborts exactly when the recognized set is
empty or a mandatory column fails a check.  The empty set and the
directly-reached mandatory failure do abort (first two conjuncts), but a
mandatory column standing right after a failing optional column is skipped
by the mutated iteration and no error is raised (last conjuncts): for
recognized `["opt1", "start"]` with mandatory `["start"]` over a table
containing neither column, the load returns `["start"]` although `"start"`
fails the existence check — contradicting the checker's docstring ("If a
mandatory column is not valid, an exception is thrown"). -/
theorem c6_mandatory_skip_bug :
    dataColumnChecker otherTable [] ["start"]
      = Except.error "Empty target_columns! No filtering possible!"
    ∧ dataColumnChecker otherTable ["start"] ["start"]
      = Except.error
          "Mandatory column cannot be processed! Column 'start' is missing in your input data!"
    ∧ dataColumnChecker otherTable ["opt1", "start"] ["start"] = Except.ok ["start"]
    ∧ checkExistence "start" otherTable = false := by
  refine ⟨rfl, rfl, rfl, rfl⟩

/-- C10: `DataColumnChecker` stores `target_columns` without copying and
removes failing optional columns from it in place, and `LazyGantt` passes
its class-level `ALL_COLUMNS`; so after a load over a table lacking
`phase_number` the class-level recognized set is `["start", "duration"]`,
and a subsequent load in the same process — over a table whose
`phase_number` column exists, has content and is numeric — still validates
only `["start", "duration"]` and never recognizes the phase column. -/
theorem c10_all_columns_shared_mutation :
    loadAllColumns ALL_COLUMNS minimalTable = Except.ok ["start", "duration"]
    ∧ loadAllColumns ["start", "duration"] fullTable = Except.ok ["start", "duration"]
    ∧ checkExistence "phase_number" fullTable = true
    ∧ checkContent "phase_number" fullTable = true
    ∧ checkForStrings "phase_number" fullTable = true := by
  refine ⟨rfl, rfl, rfl, rfl, rfl⟩

/-- C5: the claim (and the function's own docstring, "Converts array to
matrix in shape of len(arr) X x_range") promise a grid of shape
`(len(intervals), width)` for every width at least every interval's end.
The code reshapes the freshly allocated cells to
`(len(intervals), self.no_months)` instead, so for a loaded object with
`no_months = 3`, intervals `[(0, 2)]` and width `5` the reshape raises
instead of returning a `1 × 5` grid; with `width = no_months` the grid is
produced as described. -/
theorem c5_reshape_uses_no_months_bug :
    toBooleanArray 3 (some [(0, 2)]) 5 = none
    ∧ toBooleanArray 5 (some [(0, 2)]) 5
      = some (some [[true, true, false, false, false]]) := by
  constructor
  · rfl
  · rfl

/-- C2: the claim says phase aggregation runs only when a phase column
survived validation with more than one distinct value, and that in every
other case the loaded object's phase data is `None` so rendering omits the
phase row.  The absent-column case does behave so (first two conjuncts),
but when the surviving phase column has exactly one distinct value the
code assigns nothing, the constructor's demonstration defaults survive
(`no_phases = 3`, the 3-row demo phases array), and `plot` then draws a
phase subplot from stale demo data instead of omitting it (last
conjuncts); the loaded `no_months` here is 7. -/
theorem c2_single_phase_keeps_defaults_bug :
    fillPhasesStep defaultPhaseState false [1, 1] [0, 3] [3, 4] 7
      = { no_phases := none, phases := none }
    ∧ plotShowsPhaseRow 7 none = some false
    ∧ fillPhasesStep defaultPhaseState true [1, 2] [0, 3] [3, 4] 7
      = { no_phases := some 2, phases := phasesFromData [1, 2] [0, 3] [3, 4] 7 }
    ∧ fillPhasesStep defaultPhaseState true [1, 1] [0, 3] [3, 4] 7 = defaultPhaseState
    ∧ defaultPhaseState.phases = some [(0, 6), (6, 16), (16, 24)]
    ∧ plotShowsPhaseRow 7 defaultPhaseState.phases = some true := by
  refine ⟨rfl, rfl, ?_, ?_, rfl, ?_⟩
  · decide
  · decide
  · decide

/-- C4: for group ids `[1,1,2,2]`, starts `[0,3,6,8]`, durations
`[3,6,14,4]` and total duration 12, the claim asserts phase 1 = `(0, 6)`
and phase 2 = `(6, 12)`; the code computes phase 1's end as
`starts[2] + durations[2] = 6 + 14 = 20`, so the produced array is not
`[(0,6), (6,12)]`. -/
theorem c4_scenario_b_counterexample :
    phasesFromData [1, 1, 2, 2] [0, 3, 6, 8] [3, 6, 14, 4] 12
      ≠ some [(0, 6), (6, 12)] := by
  decide

/-- C4 amended: for group ids `[1,1,2,2]`, starts `[0,3,6,8]`, durations
`[3,6,14,4]` and total duration 12, phase aggregation returns
phase 1 = `(0, 20)` (its end is the start of the second run's first record
plus that record's duration) and phase 2 = `(6, 12)` (end forced to the
total duration). -/
theorem c4_scenario_b_amended :
    phasesFromData [1, 1, 2, 2] [0, 3, 6, 8] [3, 6, 14, 4] 12
      = some [(0, 20), (6, 12)] := by
  decide

/-- C3 counterexample: the ids `[1,1,3,3]` form two contiguous runs of two
distinct ids with matching starts and durations, yet aggregation does not
return one interval per run — the output array is sized by the maximum id
(3), the run starts cannot be broadcast into it, and the load raises. -/
theorem c3_counterexample :
    ((boundaryIdx [1, 1, 3, 3]).map (fun i => [(1 : Int), 1, 3, 3].getD i 0)).Nodup
    ∧ 2 ≤ (boundaryIdx [(1 : Int), 1, 3, 3]).length
    ∧ phasesFromData [1, 1, 3, 3] [0, 1, 2, 3] [1, 1, 1, 1] 5 = none := by
  refine ⟨?_, ?_, ?_⟩ <;> decide

/-- C9: the milestone filter never fails, returns exactly the milestones
`m` with `0 ≤ m ≤ no_months` in their original relative order, and emits
at most one batched diagnostic per offending condition: one listing the
negative values when any exist and one listing the too-large values when
any exist — never one message per dropped value.  The last conjunct is
Scenario C of the specification. -/
theorem filterMilestones_spec (ms : List Int) (n : Int) :
    (filterMilestones ms n).1 = ms.filter (fun m => decide (0 ≤ m ∧ m ≤ n))
    ∧ (filterMilestones ms n).2.length
      = ((if (ms.filter (fun m => decide (m < 0))).isEmpty then 0 else 1)
         + (if (ms.filter (fun m => decide (0 ≤ m ∧ n < m))).isEmpty then 0 else 1))
    ∧ (filterMilestones [-5, 3, 50] 20).1 = [3] := by
  have efilter1 : ((ms.filter (fun m => decide (0 ≤ m))).filter (fun m => decide (m ≤ n)))
      = ms.filter (fun m => decide (0 ≤ m ∧ m ≤ n)) := by
    rw [List.filter_filter]
    apply List.filter_congr
    intro x _
    by_cases h1 : 0 ≤ x <;> by_cases h2 : x ≤ n <;> simp [h1, h2]
  have efilter2 : ((ms.filter (fun m => decide (0 ≤ m))).filter (fun m => decide (n < m)))
      = ms.filter (fun m => decide (0 ≤ m ∧ n < m)) := by
    rw [List.filter_filter]
    apply List.filter_congr
    intro x _
    by_cases h1 : 0 ≤ x <;> by_cases h2 : n < x <;> simp [h1, h2]
  refine ⟨efilter1, ?_, by decide⟩
  simp only [filterMilestones, efilter2, List.length_append]
  congr 1 <;> (split <;> rfl)

/-- Helper: converting a list of rows all of whose cells are numeric
succeeds and yields the cells' integer values. -/
theorem astypeRows_some (rows : List (Cell × Cell))
    (h : ∀ r ∈ rows, r.1.isInt = true ∧ r.2.isInt = true) :
    astypeRows rows = some (rows.map (fun r => (intVal r.1, intVal r.2))) := by
  induction rows with
  | nil => rfl
  | cons r rs ih =>
    obtain ⟨h1, h2⟩ := h r (List.mem_cons_self r rs)
    have ih' := ih (fun x hx => h x (List.mem_cons_of_mem r hx))
    cases hr1 : r.1 with
    | int a =>
      cases hr2 : r.2 with
      | int b => simp [astypeRows, hr1, hr2, astypeInt32, ih', intVal, option_bind_some]
      | null => rw [hr2] at h2; simp [Cell.isInt] at h2
      | str t => rw [hr2] at h2; simp [Cell.isInt] at h2
    | null => rw [hr1] at h1; simp [Cell.isInt] at h1
    | str t => rw [hr1] at h1; simp [Cell.isInt] at h1

/-- C7: over a table whose retained rows hold numeric start and duration
cells, the rows with a null start are dropped, the computation succeeds and
returns exactly one interval `(s, s + d)` per retained row in row order
(so the output length equals the number of retained records), and whenever
every retained duration is positive every produced interval has
`end > start`. -/
theorem fillPackages_records (startCol durCol : List Cell)
    (hlen : startCol.length = durCol.length)
    (hint : ∀ r ∈ dropNanRows (startCol.zip durCol), r.1.isInt = true ∧ r.2.isInt = true) :
    fillPackages startCol durCol
      = some ((dropNanRows (startCol.zip durCol)).map
          (fun r => (intVal r.1, intVal r.1 + intVal r.2)))
    ∧ ((dropNanRows (startCol.zip durCol)).map
          (fun r => (intVal r.1, intVal r.1 + intVal r.2))).length
        = (dropNanRows (startCol.zip durCol)).length
    ∧ ((∀ r ∈ dropNanRows (startCol.zip durCol), 0 < intVal r.2) →
        ∀ p ∈ (dropNanRows (startCol.zip durCol)).map
            (fun r => (intVal r.1, intVal r.1 + intVal r.2)), p.1 < p.2) := by
  refine ⟨?_, by simp, ?_⟩
  · unfold fillPackages
    rw [astypeRows_some _ hint, option_bind_some, List.map_map]
    rfl
  · intro hpos p hp
    obtain ⟨r, hr, rfl⟩ := List.mem_map.mp hp
    have hd := hpos r hr
    dsimp only
    omega

/-- C7 witness: Scenario A's records with an extra null-start row dropped
in between. -/
theorem fillPackages_records_witness :
    fillPackages [Cell.int 0, Cell.null, Cell.int 3] [Cell.int 3, Cell.int 9, Cell.int 4]
      = some [(0, 3), (3, 7)] := by
  have h := fillPackages_records [Cell.int 0, Cell.null, Cell.int 3]
    [Cell.int 3, Cell.int 9, Cell.int 4] (by decide) (by decide)
  exact h.1

/-- Helper: the initial accumulator bounds a left fold of `max`. -/
theorem foldl_max_init_le (l : List Int) (a : Int) : a ≤ l.foldl max a := by
  induction l generalizing a with
  | nil => exact le_refl a
  | cons b l ih =>
    rw [List.foldl_cons]
    exact le_trans (le_max_left a b) (ih (max a b))

/-- Helper: every element bounds a left fold of `max`. -/
theorem foldl_max_mem_le (l : List Int) (a : Int) : ∀ x ∈ l, x ≤ l.foldl max a := by
  induction l generalizing a with
  | nil => intro x hx; simp at hx
  | cons b l ih =>
    intro x hx
    rw [List.foldl_cons]
    rcases List.mem_cons.mp hx with h | h
    · subst h
      exact le_trans (le_max_right a x) (foldl_max_init_le l (max a x))
    · exact ih (max a b) x h

/-- Helper: a left fold of `max` is the accumulator or an element. -/
theorem foldl_max_attained (l : List Int) (a : Int) :
    l.foldl max a = a ∨ l.foldl max a ∈ l := by
  induction l generalizing a with
  | nil => left; rfl
  | cons b l ih =>
    rw [List.foldl_cons]
    rcases ih (max a b) with h | h
    · rcases max_choice a b with hm | hm
      · left; rw [h, hm]
      · right; rw [h, hm]; exact List.mem_cons_self b l
    · right; exact List.mem_cons_of_mem b h

/-- C8: on every nonempty list of retained records the derived project
duration (`no_months`) is `p.start + p.duration` for a record `p` whose
start is maximal (the code picks the first such record via `idxmax`); in
particular Scenario A's records `[(0,3), (3,4)]` give 7. -/
theorem projectDuration_spec (rows : List (Int × Int)) (hne : rows ≠ []) :
    (∃ p ∈ rows, projectDuration rows = some (p.1 + p.2) ∧ ∀ q ∈ rows, q.1 ≤ p.1)
    ∧ projectDuration [((0 : Int), (3 : Int)), ((3 : Int), (4 : Int))] = some 7 := by
  refine ⟨?_, by decide⟩
  match rows, hne with
  | r :: rs, _ =>
    set m := rs.foldl (fun acc p => max acc p.1) r.1 with hm
    have hml : m = (rs.map Prod.fst).foldl max r.1 := by
      rw [hm, List.foldl_map]
    have hub : ∀ q ∈ r :: rs, q.1 ≤ m := by
      intro q hq
      rcases List.mem_cons.mp hq with h | h
      · subst h; rw [hml]; exact foldl_max_init_le _ _
      · rw [hml]; exact foldl_max_mem_le _ _ _ (List.mem_map_of_mem Prod.fst h)
    have hatt : ∃ p ∈ r :: rs, p.1 = m := by
      rcases foldl_max_attained (rs.map Prod.fst) r.1 with h | h
      · exact ⟨r, List.mem_cons_self r rs, by rw [hml, h]⟩
      · obtain ⟨q, hq, hq1⟩ := List.mem_map.mp h
        exact ⟨q, List.mem_cons_of_mem r hq, by rw [hml, hq1]⟩
    obtain ⟨p0, hp0mem, hp0eq⟩ := hatt
    have hsome : ((r :: rs).find? (fun p => p.1 == m)).isSome := by
      apply List.find?_isSome.mpr
      exact ⟨p0, hp0mem, by simp [hp0eq]⟩
    obtain ⟨q, hq⟩ := Option.isSome_iff_exists.mp hsome
    have hqmem : q ∈ r :: rs := List.mem_of_find?_eq_some hq
    have hq1 : q.1 = m := by simpa using List.find?_some hq
    refine ⟨q, hqmem, ?_, fun q' hq' => hq1 ▸ hub q' hq'⟩
    have hdef : projectDuration (r :: rs)
        = match (r :: rs).find? (fun p => p.1 == m) with
          | some p => some (m + p.2)
          | none => none := rfl
    rw [hdef, hq]
    simp [hq1]

/-- C8 witness: records `[(5,2), (1,1)]` (maximal start first). -/
theorem projectDuration_spec_witness :
    (∃ p ∈ [((5 : Int), (2 : Int)), ((1 : Int), (1 : Int))],
        projectDuration [((5 : Int), (2 : Int)), ((1 : Int), (1 : Int))] = some (p.1 + p.2)
        ∧ ∀ q ∈ [((5 : Int), (2 : Int)), ((1 : Int), (1 : Int))], q.1 ≤ p.1)
    ∧ projectDuration [((0 : Int), (3 : Int)), ((3 : Int), (4 : Int))] = some 7 :=
  projectDuration_spec [((5 : Int), (2 : Int)), ((1 : Int), (1 : Int))] (by decide)

/-- Helper: every boundary index is a valid position in the id sequence. -/
theorem boundaryIdx_lt (g : List Int) : ∀ i ∈ boundaryIdx g, i < g.length := by
  intro i hi
  exact List.mem_range.mp (List.mem_filter.mp hi).1

/-- Helper: membership in a tail implies membership in the list. -/
theorem mem_of_tail {α : Type} (l : List α) (a : α) (h : a ∈ l.tail) : a ∈ l := by
  cases l with
  | nil => simpa using h
  | cons b l => exact List.mem_cons_of_mem b h

/-- Helper: label selection over in-range labels succeeds and maps. -/
theorem seriesSelect_some (s : List Int) (idx : List Nat) (h : ∀ i ∈ idx, i < s.length) :
    seriesSelect s idx = some (idx.map (fun i => s.getD i 0)) := by
  have hc : (idx.all fun i => decide (i < s.length)) = true :=
    List.all_eq_true.mpr (fun i hi => decide_eq_true (h i hi))
  unfold seriesSelect
  rw [if_pos hc]

/-- Helper: `getD` through a `map` at a valid position. -/
theorem getD_map {α β : Type} (l : List α) (f : α → β) (r : Nat) (dA : α) (dB : β)
    (h : r < l.length) : (l.map f).getD r dB = f (l.getD r dA) := by
  induction l generalizing r with
  | nil => simp at h
  | cons a l ih =>
    cases r with
    | zero => rfl
    | succ r =>
      simp only [List.map_cons, List.getD_cons_succ]
      exact ih r (by simpa using h)

/-- Helper: `getD` on a tail shifts the position by one. -/
theorem tail_getD {α : Type} (l : List α) (r : Nat) (d : α) :
    l.tail.getD r d = l.getD (r + 1) d := by
  cases l <;> rfl

/-- Helper: `getD` on an append, inside the left part. -/
theorem getD_append_lt {α : Type} (l m : List α) (r : Nat) (d : α) (h : r < l.length) :
    (l ++ m).getD r d = l.getD r d := by
  induction l generalizing r with
  | nil => simp at h
  | cons a l ih =>
    cases r with
    | zero => rfl
    | succ r =>
      simp only [List.cons_append, List.getD_cons_succ]
      exact ih r (by simpa using h)

/-- Helper: `getD` at the position of a single appended element. -/
theorem getD_append_len {α : Type} (l : List α) (x d : α) :
    (l ++ [x]).getD l.length d = x := by
  induction l with
  | nil => rfl
  | cons a l ih =>
    simp only [List.cons_append, List.length_cons, List.getD_cons_succ]
    exact ih

/-- Helper: a zip of two lists of length `k` as a map over `range k`. -/
theorem zip_eq_rangeMap {α β : Type} (l₁ : List α) (l₂ : List β) (k : Nat)
    (d₁ : α) (d₂ : β) (h₁ : l₁.length = k) (h₂ : l₂.length = k) :
    l₁.zip l₂ = (List.range k).map (fun r => (l₁.getD r d₁, l₂.getD r d₂)) := by
  induction k generalizing l₁ l₂ with
  | zero =>
    have e1 : l₁ = [] := List.length_eq_zero.mp h₁
    have e2 : l₂ = [] := List.length_eq_zero.mp h₂
    subst e1; subst e2; rfl
  | succ k ih =>
    cases l₁ with
    | nil => simp at h₁
    | cons a l₁ =>
      cases l₂ with
      | nil => simp at h₂
      | cons b l₂ =>
        have h₁' : l₁.length = k := by simpa using h₁
        have h₂' : l₂.length = k := by simpa using h₂
        rw [List.range_succ_eq_map, List.map_cons]
        simp only [List.zip_cons_cons, List.getD_cons_zero, List.map_map]
        rw [ih l₁ l₂ h₁' h₂']
        congr 1

/-- Helper: elementwise addition of two maps over the same index list. -/
theorem zipWith_add_map (f g : Nat → Int) (l : List Nat) :
    List.zipWith (fun a b => a + b) (l.map f) (l.map g) = l.map (fun j => f j + g j) := by
  induction l with
  | nil => rfl
  | cons a l ih => simp [ih]

/-- Helper: an exact-length numpy assignment succeeds unchanged. -/
theorem npBroadcast_exact (n : Nat) (src : List Int) (h : src.length = n) :
    npBroadcast n src = some src := by
  unfold npBroadcast
  rw [if_pos h]

/-- Helper: when the allocated row count equals the number of run
boundaries, `_compose_phases` succeeds and produces exactly the
specification's intervals. -/
theorem composePhases_eq_spec (g s d : List Int) (total : Int) (no_phases : Nat)
    (hs : s.length = g.length) (hd : d.length = g.length)
    (hruns : 2 ≤ (boundaryIdx g).length)
    (hnp : no_phases = (boundaryIdx g).length) :
    composePhases no_phases total g s d = some (phaseIntervalsSpec g s d total) := by
  have hlt := boundaryIdx_lt g
  have h1 : seriesSelect s (boundaryIdx g)
      = some ((boundaryIdx g).map (fun i => s.getD i 0)) :=
    seriesSelect_some _ _ (fun i hi => hs ▸ hlt i hi)
  have h2 : seriesSelect s (boundaryIdx g).tail
      = some ((boundaryIdx g).tail.map (fun i => s.getD i 0)) :=
    seriesSelect_some _ _ (fun i hi => hs ▸ hlt i (mem_of_tail _ i hi))
  have h3 : seriesSelect d (boundaryIdx g).tail
      = some ((boundaryIdx g).tail.map (fun i => d.getD i 0)) :=
    seriesSelect_some _ _ (fun i hi => hd ▸ hlt i (mem_of_tail _ i hi))
  have hb1 : npBroadcast no_phases ((boundaryIdx g).map (fun i => s.getD i 0))
      = some ((boundaryIdx g).map (fun i => s.getD i 0)) :=
    npBroadcast_exact _ _ (by simp [hnp])
  have hzw := zipWith_add_map (fun i => s.getD i 0) (fun i => d.getD i 0) (boundaryIdx g).tail
  have hb2 : npBroadcast (no_phases - 1)
        ((boundaryIdx g).tail.map (fun j => s.getD j 0 + d.getD j 0))
      = some ((boundaryIdx g).tail.map (fun j => s.getD j 0 + d.getD j 0)) :=
    npBroadcast_exact _ _ (by simp [List.length_tail, hnp])
  have hn0 : ¬ no_phases = 0 := by omega
  unfold composePhases
  rw [h1, option_bind_some, h2, option_bind_some, h3, option_bind_some,
      hb1, option_bind_some, hzw, hb2, option_bind_some, if_neg hn0]
  congr 1
  have hk1 : ((boundaryIdx g).map (fun i => s.getD i 0)).length = (boundaryIdx g).length := by
    simp
  have hk2 : ((boundaryIdx g).tail.map (fun j => s.getD j 0 + d.getD j 0) ++ [total]).length
      = (boundaryIdx g).length := by
    simp only [List.length_append, List.length_map, List.length_tail, List.length_singleton]
    omega
  rw [zip_eq_rangeMap _ _ (boundaryIdx g).length 0 0 hk1 hk2]
  unfold phaseIntervalsSpec
  apply List.map_congr_left
  intro r hr
  have hrk : r < (boundaryIdx g).length := List.mem_range.mp hr
  simp only [Prod.mk.injEq]
  constructor
  · exact getD_map _ _ r 0 0 hrk
  · by_cases hc : r + 1 < (boundaryIdx g).length
    · rw [if_pos hc]
      have hrtl : r < ((boundaryIdx g).tail.map (fun j => s.getD j 0 + d.getD j 0)).length := by
        simp only [List.length_map, List.length_tail]
        omega
      rw [getD_append_lt _ _ r 0 hrtl]
      have hrt : r < (boundaryIdx g).tail.length := by
        simp only [List.length_tail]
        omega
      rw [getD_map _ _ r 0 0 hrt, tail_getD]
    · rw [if_neg hc]
      have hre : r = ((boundaryIdx g).tail.map (fun j => s.getD j 0 + d.getD j 0)).length := by
        simp only [List.length_map, List.length_tail]
        omega
      rw [hre, getD_append_len]

/-- C3 (amended): for every group-id sequence arranged in contiguous runs
(no id starts two runs, so runs and distinct ids coincide) with at least 2
runs and matching starts/durations sequences, and — as the amendment
forces — with the maximum group id equal to the number of runs (the
documented ascending `1..n` numbering; the pipeline sizes the output array
by `data[phase].max()`), phase aggregation returns exactly one interval
per contiguous run: the interval of the run with first index `i` starts at
`starts[i]`, every run except the last ends at `starts[j] + durations[j]`
for the next run's first index `j`, and the last run ends at the total
duration (`phaseIntervalsSpec` states exactly this). -/
theorem c3_phase_aggregation_per_run (g s d : List Int) (total : Int) (m : Int)
    (hs : s.length = g.length) (hd : d.length = g.length)
    (hcontig : ((boundaryIdx g).map (fun i => g.getD i 0)).Nodup)
    (hruns : 2 ≤ (boundaryIdx g).length)
    (hmax : g.max? = some m)
    (hnp : m.toNat = (boundaryIdx g).length) :
    phasesFromData g s d total = some (phaseIntervalsSpec g s d total)
    ∧ (phaseIntervalsSpec g s d total).length = (boundaryIdx g).length := by
  constructor
  · have hm : ¬ m < 0 := by
      intro hneg
      have h0 : m.toNat = 0 := Int.toNat_of_nonpos (le_of_lt hneg)
      omega
    have hred : phasesFromData g s d total
        = if m < 0 then none else composePhases m.toNat total g s d := by
      unfold phasesFromData
      rw [hmax]
    rw [hred, if_neg hm]
    exact composePhases_eq_spec g s d total m.toNat hs hd hruns hnp
  · unfold phaseIntervalsSpec
    simp

/-- C3 witness: ids `[1,1,2]` (two contiguous runs, maximum id 2), starts
`[0,2,5]`, durations `[2,4,3]`, total duration 9: phase 1 = `(0, 8)`
(5 + 3), phase 2 = `(5, 9)`. -/
theorem c3_phase_aggregation_per_run_witness :
    phasesFromData [1, 1, 2] [0, 2, 5] [2, 4, 3] 9 = some [(0, 8), (5, 9)]
    ∧ (phaseIntervalsSpec [1, 1, 2] [0, 2, 5] [2, 4, 3] 9).length
      = (boundaryIdx [(1 : Int), 1, 2]).length := by
  have h := c3_phase_aggregation_per_run [1, 1, 2] [0, 2, 5] [2, 4, 3] 9 2
    (by decide) (by decide) (by decide) (by decide) (by decide) (by decide)
  exact ⟨h.1, h.2⟩
